import Mathlib

/-
  Verification of the Diabetes Care API (`api.py`).

  The service exposes England diabetes-care indicator data through HTTP
  endpoints.  We give a shallow embedding of its data-handling logic:

  * a pandas DataFrame row becomes a `Row` record; missing cells (`NaN`)
    become `Option` values; floating-point values are modelled as rationals;
  * the module-level `_cache` dict becomes an explicit `CacheState` threaded
    through every operation; the upstream Fingertips fetch and the boundary
    fetch are parameters (they are external network calls);
  * an HTTP 4xx raised via `HTTPException` becomes `Except HTTPError`;
  * pandas `nlargest`/`nsmallest` (default `keep='first'`: stable selection,
    ties broken by original row order) are modelled with the stable
    `List.insertionSort`;
  * `scipy.stats.pearsonr` and the square root used by `Series.std` are
    external numerical routines, passed as parameters;
  * matplotlib rendering is out of scope; for `/map` we model the data that
    is plotted (the left-joined table and the fill assigned to each joined
    row, where a missing value gets the distinct "no data" fill).

  Python's `round(x, nd)` rounds half to even; `roundHalfEven` models it
  over exact rationals (Python applies it to binary floats, whose
  representation error is not modelled; the theorems below depend only on
  monotonicity of rounding).
-/

namespace DiabetesAPI

/-- One row of the indicator DataFrame fetched from Fingertips.
Columns used by `api.py`: `Area Code`, `Area Name`, `Area Type`,
`Time period`, `Value`, `Count`, `Denominator`.  `Value` is a percentage
that may be missing (NaN); `Count` and `Denominator` may be missing. -/
structure Row where
  areaCode : String
  areaName : String
  areaType : String
  timePeriod : String
  value : Option ℚ
  count : Option Int
  denominator : Option Int
deriving DecidableEq, Repr

/-- One ICB boundary geometry from the ArcGIS service; `code` is the
`ICB23CD` join key.  The polygon itself plays no role in the joined data,
so it is not modelled. -/
structure Boundary where
  code : String
  name : String
deriving DecidableEq, Repr

/-- `fastapi.HTTPException`: an HTTP status code plus a detail message. -/
structure HTTPError where
  status_code : Nat
  detail : String
deriving DecidableEq, Repr

/-- The module-level `_cache` dict.  It holds the per-indicator datasets
(keys `f"indicator_{id}"`) and the single `"boundaries"` slot. -/
structure CacheState where
  indicators : List (Nat × List Row)
  boundaries : Option (List Boundary)
deriving DecidableEq, Repr

/-- The empty cache, the state at process start. -/
def cache0 : CacheState := { indicators := [], boundaries := none }

/-- `get_indicator_data`: return the cached dataset for `indicator_id`,
fetching (and caching) it on a miss.  `fetch` stands for
`ftp.get_data_for_indicator_at_all_available_geographies`. -/
def get_indicator_data (fetch : Nat → List Row) (cache : CacheState)
    (indicator_id : Nat) : List Row × CacheState :=
  match cache.indicators.lookup indicator_id with
  | some d => (d, cache)
  | none =>
    let d := fetch indicator_id
    (d, { cache with indicators := (indicator_id, d) :: cache.indicators })

/-- `get_boundaries`: return the cached ICB boundaries, fetching on a miss.
`fetchB` stands for `gpd.read_file(BOUNDARIES_URL)`. -/
def get_boundaries (fetchB : Unit → List Boundary) (cache : CacheState) :
    List Boundary × CacheState :=
  match cache.boundaries with
  | some b => (b, cache)
  | none =>
    let b := fetchB ()
    (b, { cache with boundaries := some b })

/-- Lexicographic comparison of character lists, the order Python uses to
compare strings (and hence the order pandas uses for `Series.max` and
`sorted` on the time-period column). -/
def charsLe : List Char → List Char → Bool
  | [], _ => true
  | _ :: _, [] => false
  | a :: as, b :: bs => if a < b then true else if b < a then false else charsLe as bs

/-- Python string `<=`: lexicographic on the code points. -/
def strLe (a b : String) : Bool := charsLe a.data b.data

/-- Python `max` of two strings. -/
def strMax (a b : String) : String := if strLe a b then b else a

/-- `df['Time period'].max()` on a nonempty frame: the maximum time-period
string under lexicographic comparison. -/
def maxTimePeriod : List Row → String
  | [] => ""
  | r :: rs => rs.foldl (fun acc x => strMax acc x.timePeriod) r.timePeriod

/-- `filter_data(indicator_id, area_type, time_period)`: restrict the
fetched dataset to `area_type` (404 if empty), resolve a missing time
period to the column maximum, restrict to that period (404 if empty), and
return the rows together with the resolved period. -/
def filter_data (fetch : Nat → List Row) (cache : CacheState)
    (indicator_id : Nat) (area_type : String) (time_period : Option String) :
    Except HTTPError (List Row × String) × CacheState :=
  let fetched := get_indicator_data fetch cache indicator_id
  let df := fetched.1.filter (fun r => r.areaType == area_type)
  if df = [] then
    (Except.error { status_code := 404,
                    detail := "No data for area type " ++ area_type }, fetched.2)
  else
    let tp := match time_period with
      | some t => t
      | none => maxTimePeriod df
    let df2 := df.filter (fun r => r.timePeriod == tp)
    if df2 = [] then
      (Except.error { status_code := 404,
                      detail := "No data for time period " ++ tp }, fetched.2)
    else
      (Except.ok (df2, tp), fetched.2)

/-- Response of `/time-periods`. -/
structure TimePeriodsOut where
  time_periods : List String
  latest : Option String
deriving DecidableEq, Repr

/-- `list_time_periods`: the distinct time periods for the rows of the
requested area type, sorted descending; `latest` is the first of them when
any exist (`periods[0] if periods else None`).  Note this endpoint filters
by area type directly, without `filter_data`, so it never raises.
(`pandas.unique` keeps first occurrences while `List.dedup` keeps last
ones; after sorting, the results coincide since both keep each distinct
period exactly once.) -/
def list_time_periods (fetch : Nat → List Row) (cache : CacheState)
    (indicator_id : Nat) (area_type : String) : TimePeriodsOut × CacheState :=
  let fetched := get_indicator_data fetch cache indicator_id
  let df := fetched.1.filter (fun r => r.areaType == area_type)
  let periods := List.insertionSort (fun a b : String => strLe b a = true)
    ((df.map (fun r => r.timePeriod)).dedup)
  ({ time_periods := periods, latest := periods.head? }, fetched.2)

/-- Equality of `Except` results is decidable componentwise (used only to
evaluate the concrete instances below). -/
def exceptDecEq {ε α : Type} [DecidableEq ε] [DecidableEq α] :
    DecidableEq (Except ε α)
  | Except.error a, Except.error b =>
    if h : a = b then isTrue (by rw [h])
    else isFalse (fun hc => by cases hc; exact h rfl)
  | Except.error _, Except.ok _ => isFalse (fun hc => by cases hc)
  | Except.ok _, Except.error _ => isFalse (fun hc => by cases hc)
  | Except.ok a, Except.ok b =>
    if h : a = b then isTrue (by rw [h])
    else isFalse (fun hc => by cases hc; exact h rfl)

instance {ε α : Type} [DecidableEq ε] [DecidableEq α] :
    DecidableEq (Except ε α) := exceptDecEq

/-- A concrete indicator row used to instantiate the theorems below. -/
def exRow1 : Row :=
  { areaCode := "E54000001", areaName := "Leeds", areaType := "ICBs",
    timePeriod := "2023/24", value := some 50, count := some 100,
    denominator := some 200 }

/-- A second concrete row, an earlier period of the same area. -/
def exRow0 : Row :=
  { areaCode := "E54000001", areaName := "Leeds", areaType := "ICBs",
    timePeriod := "2022/23", value := some 40, count := some 90,
    denominator := some 210 }

/-- A concrete stand-in for the upstream Fingertips fetch. -/
def exFetch1 : Nat → List Row := fun _ => [exRow0, exRow1]

/-- Python's `round` to an integer: round half to even (banker's
rounding), built from the computable `Rat.floor`. -/
def roundHalfEven (x : ℚ) : ℤ :=
  let n := Rat.floor x
  let frac := x - (n : ℚ)
  if frac < 1/2 then n
  else if 1/2 < frac then n + 1
  else if n % 2 = 0 then n else n + 1

/-- Python `round(x, 2)`. -/
def round2 (x : ℚ) : ℚ := ((roundHalfEven (x * 100) : ℤ) : ℚ) / 100

/-- Python `round(x, 4)`. -/
def round4 (x : ℚ) : ℚ := ((roundHalfEven (x * 10000) : ℤ) : ℚ) / 10000

/-- The `Value` of a row known to be non-missing (rows are passed through
`dropna` before this is used). -/
def valOf (r : Row) : ℚ := r.value.getD 0

/-- ASCII lowercasing of one character, as `str.lower` does on the ASCII
range (all area names in the dataset are ASCII). -/
def charLower (c : Char) : Char :=
  if 65 ≤ c.toNat ∧ c.toNat ≤ 90 then Char.ofNat (c.toNat + 32) else c

/-- Does `hay` start with `needle`? -/
def startsWith : List Char → List Char → Bool
  | _, [] => true
  | [], _ :: _ => false
  | h :: hs, n :: ns => h == n && startsWith hs ns

/-- Does `hay` contain `needle` as a contiguous subsequence? -/
def containsSeq : List Char → List Char → Bool
  | [], needle => needle.isEmpty
  | h :: t, needle => startsWith (h :: t) needle || containsSeq t needle

/-- `Series.str.contains(pat, case=False, na=False)` for a plain-text
pattern: case-insensitive substring test.  (pandas treats `pat` as a
regular expression by default; regex metacharacters are not modelled, so
this matches the code for patterns without them.) -/
def containsCI (hay needle : String) : Bool :=
  containsSeq (hay.data.map charLower) (needle.data.map charLower)

/-- Comparison on optional values putting a missing value (`NaN`) below
every present one; used to model `sort_values('Value', ascending=False)`,
which orders by value descending with NaN rows last
(`na_position='last'`). -/
def optValLe (a b : Option ℚ) : Bool :=
  match a, b with
  | none, _ => true
  | some _, none => false
  | some x, some y => decide (x ≤ y)

/-- One record of the `/data` response. -/
structure DataRecord where
  area_code : String
  area_name : String
  value : Option ℚ
  count : Option Int
  denominator : Option Int
deriving DecidableEq, Repr

/-- The `/data` response (the static indicator/area-type echo fields are
omitted: they are copied verbatim from the request). -/
structure DataOut where
  time_period : String
  count : Nat
  data : List DataRecord
deriving DecidableEq, Repr

/-- `get_data` (`/data`): `filter_data`, then the optional case-insensitive
area-name filter, the optional inclusive value bounds, sort by value
descending, optional head limit, and projection to response records with
values rounded to 2 decimals.  (pandas' default `sort_values` kind is not
stable; a stable sort is used here, which only fixes an order among
equal-value rows that pandas leaves unspecified.) -/
def get_data (fetch : Nat → List Row) (cache : CacheState) (indicator_id : Nat)
    (area_type : String) (time_period : Option String)
    (area_name_contains : Option String) (min_value max_value : Option ℚ)
    (limit : Option Nat) : Except HTTPError DataOut × CacheState :=
  match filter_data fetch cache indicator_id area_type time_period with
  | (Except.error e, c) => (Except.error e, c)
  | (Except.ok (df0, period), c) =>
    let df1 := match area_name_contains with
      | none => df0
      | some pat => df0.filter (fun r => containsCI r.areaName pat)
    let df2 := match min_value with
      | none => df1
      | some v => df1.filter (fun r => match r.value with
          | some x => decide (v ≤ x)
          | none => false)
    let df3 := match max_value with
      | none => df2
      | some v => df2.filter (fun r => match r.value with
          | some x => decide (x ≤ v)
          | none => false)
    let sortedRows := List.insertionSort
      (fun r s : Row => optValLe s.value r.value = true) df3
    let df4 := match limit with
      | none => sortedRows
      | some k => sortedRows.take k
    let records := df4.map (fun r =>
      DataRecord.mk r.areaCode r.areaName (r.value.map round2) r.count r.denominator)
    (Except.ok (DataOut.mk period records.length records), c)

/-- Ascending sort of a series of values, as pandas quantile/median do
internally. -/
def sortedAsc (l : List ℚ) : List ℚ :=
  List.insertionSort (fun a b : ℚ => a ≤ b) l

/-- Linear interpolation of a sorted series at fractional position `pos`
(`numpy`'s default `interpolation='linear'`): with `lo = ⌊pos⌋` it returns
`s[lo] + (pos - lo) * (s[lo+1] - s[lo])`, the upper index clamped to the
last element. -/
def interpolate (s : List ℚ) (pos : ℚ) : ℚ :=
  s.getD (Rat.floor pos).toNat 0 +
    (pos - ((Rat.floor pos).toNat : ℚ)) *
      (s.getD (min ((Rat.floor pos).toNat + 1) (s.length - 1)) 0 -
        s.getD (Rat.floor pos).toNat 0)

/-- `Series.quantile(q)` (linear interpolation): interpolate the sorted
values at position `q * (n - 1)`.  pandas returns NaN on an empty series;
`0` stands in for that here (the claims only touch nonempty series). -/
def quantile (l : List ℚ) (q : ℚ) : ℚ :=
  match l with
  | [] => 0
  | _ :: _ => interpolate (sortedAsc l) (q * ((l.length : ℚ) - 1))

/-- `Series.min()` (`0` standing in for NaN on an empty series). -/
def listMin : List ℚ → ℚ
  | [] => 0
  | h :: t => t.foldl min h

/-- `Series.max()`. -/
def listMax : List ℚ → ℚ
  | [] => 0
  | h :: t => t.foldl max h

/-- `Series.mean()`. -/
def listMean (l : List ℚ) : ℚ := l.sum / l.length

/-- The sample variance with the `N - 1` denominator, the square of
pandas' default `Series.std()` (`ddof=1`); `0` stands in for NaN when
fewer than two values exist. -/
def sampleVar (l : List ℚ) : ℚ :=
  if l.length ≤ 1 then 0
  else (l.map (fun x => (x - listMean l) ^ 2)).sum / ((l.length : ℚ) - 1)

/-- The `statistics` object of the `/summary` response. -/
structure SummaryStats where
  mean : ℚ
  std : ℚ
  min : ℚ
  percentile_25 : ℚ
  median : ℚ
  percentile_75 : ℚ
  max : ℚ
deriving DecidableEq, Repr

/-- The `/summary` response (static echo fields omitted). -/
structure SummaryOut where
  time_period : String
  areas_count : Nat
  total_patients : Int
  statistics : SummaryStats
deriving DecidableEq, Repr

/-- `get_summary` (`/summary`): `filter_data`, drop missing values, and
report count, denominator total and the rounded descriptive statistics.
`Series.std` takes a square root, an external numerical routine here
passed as the parameter `sqrt`; `Series.median()` equals
`Series.quantile(0.5)` with linear interpolation.  (`Denominator` is a
column of the fetched frame, so `'Denominator' in df.columns` holds and
`df['Denominator'].sum()` treats missing entries as 0.) -/
def get_summary (sqrt : ℚ → ℚ) (fetch : Nat → List Row) (cache : CacheState)
    (indicator_id : Nat) (area_type : String) (time_period : Option String) :
    Except HTTPError SummaryOut × CacheState :=
  match filter_data fetch cache indicator_id area_type time_period with
  | (Except.error e, c) => (Except.error e, c)
  | (Except.ok (df, period), c) =>
    let values := (df.filter (fun r => r.value.isSome)).map valOf
    (Except.ok (SummaryOut.mk period values.length
      ((df.map (fun r => r.denominator.getD 0)).sum)
      (SummaryStats.mk
        (round2 (listMean values))
        (round2 (sqrt (sampleVar values)))
        (round2 (listMin values))
        (round2 (quantile values (0.25 : ℚ)))
        (round2 (quantile values (0.5 : ℚ)))
        (round2 (quantile values (0.75 : ℚ)))
        (round2 (listMax values)))), c)

/-- Descending comparison by `Value`, the order behind
`df.nlargest(n, 'Value')`. -/
def descVal (a b : Row) : Prop := valOf b ≤ valOf a

/-- Ascending comparison by `Value`, the order behind
`df.nsmallest(n, 'Value')`. -/
def ascVal (a b : Row) : Prop := valOf a ≤ valOf b

instance : DecidableRel descVal :=
  fun a b => inferInstanceAs (Decidable (valOf b ≤ valOf a))

instance : DecidableRel ascVal :=
  fun a b => inferInstanceAs (Decidable (valOf a ≤ valOf b))

instance : IsTotal Row descVal := ⟨fun a b => le_total (valOf b) (valOf a)⟩

instance : IsTotal Row ascVal := ⟨fun a b => le_total (valOf a) (valOf b)⟩

instance : IsTrans Row descVal := ⟨fun _ _ _ hab hbc => le_trans hbc hab⟩

instance : IsTrans Row ascVal := ⟨fun _ _ _ hab hbc => le_trans hab hbc⟩

/-- `df.nlargest(n, 'Value')` with the default `keep='first'`: the first
`n` rows of the stable descending sort, so ties are broken by original row
order. -/
def nlargest (n : Nat) (rows : List Row) : List Row :=
  (List.insertionSort descVal rows).take n

/-- `df.nsmallest(n, 'Value')` with the default `keep='first'`. -/
def nsmallest (n : Nat) (rows : List Row) : List Row :=
  (List.insertionSort ascVal rows).take n

/-- The `order` query parameter of `/rankings`. -/
inductive RankOrder
  | top
  | bottom
deriving DecidableEq, Repr

/-- One entry of the `/rankings` response. -/
structure RankEntry where
  rank : Nat
  area_code : String
  area_name : String
  value : ℚ
  patient_count : Option Int
deriving DecidableEq, Repr

/-- The `/rankings` response (static echo fields omitted). -/
structure RankingsOut where
  time_period : String
  rorder : RankOrder
  rankings : List RankEntry
deriving DecidableEq, Repr

/-- The `for rank, (_, row) in enumerate(df.iterrows(), 1)` loop: 1-based
sequential ranks over the selected rows, values rounded to 2 decimals. -/
def rankEntries (sel : List Row) : List RankEntry :=
  sel.enum.map (fun p =>
    RankEntry.mk (p.1 + 1) p.2.areaCode p.2.areaName (round2 (valOf p.2))
      p.2.denominator)

/-- `get_rankings` (`/rankings`): `filter_data`, drop rows with missing
`Value`, select the top-`n` (or bottom-`n`) rows by value, and rank them
1-based.  A pure function of its inputs, hence deterministic. -/
def get_rankings (fetch : Nat → List Row) (cache : CacheState)
    (indicator_id : Nat) (area_type : String) (time_period : Option String)
    (n : Nat) (ord : RankOrder) : Except HTTPError RankingsOut × CacheState :=
  match filter_data fetch cache indicator_id area_type time_period with
  | (Except.error e, c) => (Except.error e, c)
  | (Except.ok (df, period), c) =>
    let dn := df.filter (fun r => r.value.isSome)
    let sel := match ord with
      | RankOrder.top => nlargest n dn
      | RankOrder.bottom => nsmallest n dn
    (Except.ok (RankingsOut.mk period ord (rankEntries sel)), c)

/-- What claim C5 asserts of a `/rankings` response `out`, given the rows
`dn` that survive `dropna` and the selection `sel`: the ranks are exactly
the strictly increasing sequence `1, …, min n (dn.length)`, the entries
are the ranked projection of `sel`, and every selected row's value bounds
every unselected row's value on the side named by `ord`. -/
def rankingsSpec (dn sel : List Row) (n : Nat) (ord : RankOrder)
    (out : RankingsOut) : Prop :=
  out.rankings.map (fun e => e.rank) = List.range' 1 (min n dn.length) ∧
  out.rankings = rankEntries sel ∧
  ∀ e ∈ sel, ∀ x ∈ dn, x ∉ sel →
    (ord = RankOrder.top → valOf x ≤ valOf e) ∧
    (ord = RankOrder.bottom → valOf e ≤ valOf x)

/-- The `correlation` object of the `/correlation` response (static echo
fields omitted). -/
structure CorrelationOut where
  time_period : String
  r : ℚ
  p_value : ℚ
  significant : Bool
  interpretation : String
deriving DecidableEq, Repr

/-- The `if p >= 0.05 / elif r > 0.3 / elif r < -0.3 / else` chain of
`get_correlation`. -/
def interpretOf (r p : ℚ) : String :=
  if (0.05 : ℚ) ≤ p then
    "No significant relationship between population size and care quality."
  else if (0.3 : ℚ) < r then
    "Larger populations tend to have better care quality."
  else if r < -(0.3 : ℚ) then
    "Larger populations tend to have worse care quality."
  else
    "Weak relationship between population size and care quality."

/-- `get_correlation` (`/correlation`): `filter_data`, drop rows missing
`Value` or `Denominator`, fail with a 400 on fewer than 3 complete rows,
else correlate denominator against value.  `scipy.stats.pearsonr` is an
external numerical routine, passed as the parameter `pearson` returning
the coefficient and the two-sided p-value. -/
def get_correlation (pearson : List ℚ → List ℚ → ℚ × ℚ)
    (fetch : Nat → List Row) (cache : CacheState) (indicator_id : Nat)
    (area_type : String) (time_period : Option String) :
    Except HTTPError CorrelationOut × CacheState :=
  match filter_data fetch cache indicator_id area_type time_period with
  | (Except.error e, c) => (Except.error e, c)
  | (Except.ok (df, period), c) =>
    let dfc := df.filter (fun r => r.value.isSome && r.denominator.isSome)
    if dfc.length < 3 then
      (Except.error (HTTPError.mk 400 "Insufficient data for correlation analysis"), c)
    else
      let x := dfc.map (fun r => ((r.denominator.getD 0 : Int) : ℚ))
      let y := dfc.map valOf
      let rp := pearson x y
      (Except.ok (CorrelationOut.mk period (round4 rp.1) (round4 rp.2)
        (decide (rp.2 < (0.05 : ℚ))) (interpretOf rp.1 rp.2)), c)

/-- The fill assigned to one plotted polygon of the choropleth: a colour
scaled by the row's value, or the distinct "no data" fill
(`missing_kwds={'color': 'lightgrey', 'label': 'No data'}`, applied by
`GeoDataFrame.plot` to rows whose `Value` is missing). -/
inductive Fill
  | color (v : ℚ)
  | noData
deriving DecidableEq, Repr

/-- `gdf.merge(df[...], left_on='ICB23CD', right_on='Area Code',
how='left')`: every boundary is kept; a boundary with matching indicator
rows yields one merged row per match, and a boundary with no match yields
a single row with missing (NaN) indicator columns. -/
def mergeLeft (gdf : List Boundary) (df : List Row) :
    List (Boundary × Option Row) :=
  gdf.flatMap (fun b =>
    if df.filter (fun r => r.areaCode == b.code) = [] then [(b, none)]
    else (df.filter (fun r => r.areaCode == b.code)).map (fun r => (b, some r)))

/-- The fill of one merged row: an unmatched boundary (or a matched row
with missing value, i.e. a NaN in the merged `Value` column) gets the
"no data" fill. -/
def fillOf (e : Boundary × Option Row) : Fill :=
  match e.2 with
  | none => Fill.noData
  | some r =>
    match r.value with
    | none => Fill.noData
    | some v => Fill.color v

/-- The data behind the rendered `/map` image: the joined table and the
fill of each joined row.  The rendering itself (matplotlib figure, colour
map, sizes, PNG/base64 encoding) is outside the embedding. -/
structure MapPlot where
  time_period : String
  entries : List (Boundary × Option Row)
  fills : List Fill
deriving DecidableEq, Repr

/-- `generate_map` (`/map`): `filter_data` with the area type fixed to
`"ICBs"`, fetch the boundaries (read-through cached), left-join them with
the filtered rows by area code, and plot each joined row with its fill. -/
def generate_map (fetchB : Unit → List Boundary) (fetch : Nat → List Row)
    (cache : CacheState) (indicator_id : Nat) (time_period : Option String) :
    Except HTTPError MapPlot × CacheState :=
  match filter_data fetch cache indicator_id "ICBs" time_period with
  | (Except.error e, c) => (Except.error e, c)
  | (Except.ok (df, period), c) =>
    let gb := get_boundaries fetchB c
    let merged := mergeLeft gb.1 df
    (Except.ok (MapPlot.mk period merged (merged.map fillOf)), gb.2)

/-- Two concrete ICB boundaries: one matching the example data's area
code, one matching nothing. -/
def exBoundaries : List Boundary :=
  [Boundary.mk "E54000001" "Leeds ICB", Boundary.mk "E54000099" "Nowhere ICB"]

/-- A concrete stand-in for the boundary fetch. -/
def exFetchB : Unit → List Boundary := fun _ => exBoundaries

/-- A concrete stand-in for `pearsonr`, never reached on the insufficient
branch. -/
def pearson0 : List ℚ → List ℚ → ℚ × ℚ := fun _ _ => (0, 1)

/-- A concrete stand-in for `pearsonr` reporting a strong significant
positive correlation. -/
def pearsonEx : List ℚ → List ℚ → ℚ × ℚ := fun _ _ => (1, 0)

/-- Six concrete one-period ICB rows with pairwise distinct values and
area codes. -/
def exRowsC6 : List Row :=
  [ Row.mk "A1" "Area1" "ICBs" "2023/24" (some 10) none (some 100),
    Row.mk "A2" "Area2" "ICBs" "2023/24" (some 20) none (some 100),
    Row.mk "A3" "Area3" "ICBs" "2023/24" (some 30) none (some 100),
    Row.mk "A4" "Area4" "ICBs" "2023/24" (some 40) none (some 100),
    Row.mk "A5" "Area5" "ICBs" "2023/24" (some 50) none (some 100),
    Row.mk "A6" "Area6" "ICBs" "2023/24" (some 60) none (some 100) ]

/-- A fetch returning the six-row dataset. -/
def exFetchC6 : Nat → List Row := fun _ => exRowsC6

/-- Ten concrete one-period ICB rows with pairwise distinct values and
area codes. -/
def exRowsTen : List Row :=
  [ Row.mk "B01" "AreaB1" "ICBs" "2023/24" (some 1) none none,
    Row.mk "B02" "AreaB2" "ICBs" "2023/24" (some 2) none none,
    Row.mk "B03" "AreaB3" "ICBs" "2023/24" (some 3) none none,
    Row.mk "B04" "AreaB4" "ICBs" "2023/24" (some 4) none none,
    Row.mk "B05" "AreaB5" "ICBs" "2023/24" (some 5) none none,
    Row.mk "B06" "AreaB6" "ICBs" "2023/24" (some 6) none none,
    Row.mk "B07" "AreaB7" "ICBs" "2023/24" (some 7) none none,
    Row.mk "B08" "AreaB8" "ICBs" "2023/24" (some 8) none none,
    Row.mk "B09" "AreaB9" "ICBs" "2023/24" (some 9) none none,
    Row.mk "B10" "AreaB10" "ICBs" "2023/24" (some 11) none none ]

/-- A fetch returning the ten-row dataset. -/
def exFetchTen : Nat → List Row := fun _ => exRowsTen

-- ===========================================================================
-- Helper lemmas
-- ===========================================================================

lemma charsLe_refl (l : List Char) : charsLe l l = true := by
  induction l with
  | nil => rfl
  | cons a as ih => simp [charsLe, lt_irrefl, ih]

lemma charsLe_total (a b : List Char) : charsLe a b = true ∨ charsLe b a = true := by
  induction a generalizing b with
  | nil => exact Or.inl rfl
  | cons x xs ih =>
    match b with
    | [] => exact Or.inr rfl
    | y :: ys =>
      rcases lt_trichotomy x y with h | h | h
      · exact Or.inl (by simp [charsLe, h])
      · subst h
        rcases ih ys with hc | hc
        · exact Or.inl (by simp [charsLe, lt_irrefl, hc])
        · exact Or.inr (by simp [charsLe, lt_irrefl, hc])
      · exact Or.inr (by simp [charsLe, h])

lemma charsLe_trans : ∀ {a b c : List Char},
    charsLe a b = true → charsLe b c = true → charsLe a c = true
  | [], _, _, _, _ => rfl
  | _ :: _, [], _, h1, _ => by cases h1
  | _ :: _, _ :: _, [], _, h2 => by cases h2
  | x :: xs, y :: ys, z :: zs, h1, h2 => by
    simp only [charsLe] at h1 h2 ⊢
    rcases lt_trichotomy x y with hxy | hxy | hxy
    · rcases lt_trichotomy y z with hyz | hyz | hyz
      · simp [lt_trans hxy hyz]
      · subst hyz; simp [hxy]
      · rw [if_neg (asymm hyz), if_pos hyz] at h2; cases h2
    · subst hxy
      rcases lt_trichotomy x z with hyz | hyz | hyz
      · simp [hyz]
      · subst hyz
        rw [if_neg (lt_irrefl x), if_neg (lt_irrefl x)] at h1 h2
        simp [lt_irrefl, charsLe_trans h1 h2]
      · rw [if_neg (asymm hyz), if_pos hyz] at h2; cases h2
    · rw [if_neg (asymm hxy), if_pos hxy] at h1; cases h1

lemma strLe_refl (a : String) : strLe a a = true := charsLe_refl _

lemma strLe_total (a b : String) : strLe a b = true ∨ strLe b a = true :=
  charsLe_total _ _

lemma strLe_trans {a b c : String} (h1 : strLe a b = true)
    (h2 : strLe b c = true) : strLe a c = true := charsLe_trans h1 h2

lemma strMax_choice (a b : String) : strMax a b = a ∨ strMax a b = b := by
  unfold strMax
  split_ifs
  · exact Or.inr rfl
  · exact Or.inl rfl

lemma strLe_strMax_left (a b : String) : strLe a (strMax a b) = true := by
  unfold strMax
  split_ifs with h
  · exact h
  · exact strLe_refl a

lemma strLe_strMax_right (a b : String) : strLe b (strMax a b) = true := by
  unfold strMax
  split_ifs with h
  · exact strLe_refl b
  · rcases strLe_total a b with hc | hc
    · exact absurd hc h
    · exact hc

lemma foldl_max_acc_or_mem (rs : List Row) (acc : String) :
    rs.foldl (fun a x => strMax a x.timePeriod) acc = acc ∨
      ∃ r ∈ rs, rs.foldl (fun a x => strMax a x.timePeriod) acc = r.timePeriod := by
  induction rs generalizing acc with
  | nil => exact Or.inl rfl
  | cons h t ih =>
    rw [List.foldl_cons]
    rcases ih (strMax acc h.timePeriod) with heq | ⟨r, hr, heq⟩
    · rcases strMax_choice acc h.timePeriod with hm | hm
      · exact Or.inl (by rw [heq, hm])
      · exact Or.inr ⟨h, List.mem_cons_self _ _, by rw [heq, hm]⟩
    · exact Or.inr ⟨r, List.mem_cons_of_mem _ hr, heq⟩

lemma acc_le_foldl_max (rs : List Row) (acc : String) :
    strLe acc (rs.foldl (fun a x => strMax a x.timePeriod) acc) = true := by
  induction rs generalizing acc with
  | nil => exact strLe_refl _
  | cons h t ih =>
    rw [List.foldl_cons]
    exact strLe_trans (strLe_strMax_left _ _) (ih _)

lemma mem_le_foldl_max (rs : List Row) (acc : String) :
    ∀ r ∈ rs,
      strLe r.timePeriod (rs.foldl (fun a x => strMax a x.timePeriod) acc) = true := by
  induction rs generalizing acc with
  | nil => intro r hr; cases hr
  | cons h t ih =>
    intro r hr
    rw [List.foldl_cons]
    rcases List.mem_cons.mp hr with rfl | hr
    · exact strLe_trans (strLe_strMax_right _ _) (acc_le_foldl_max _ _)
    · exact ih _ r hr

/-- On a nonempty frame the column maximum is attained by some row. -/
lemma maxTimePeriod_mem {rows : List Row} (h : rows ≠ []) :
    ∃ r ∈ rows, r.timePeriod = maxTimePeriod rows := by
  match rows with
  | [] => exact absurd rfl h
  | r :: rs =>
    rcases foldl_max_acc_or_mem rs r.timePeriod with heq | ⟨x, hx, heq⟩
    · exact ⟨r, List.mem_cons_self _ _, heq.symm⟩
    · exact ⟨x, List.mem_cons_of_mem _ hx, heq.symm⟩

/-- The column maximum bounds every row's time period. -/
lemma le_maxTimePeriod {rows : List Row} :
    ∀ r ∈ rows, strLe r.timePeriod (maxTimePeriod rows) = true := by
  match rows with
  | [] => intro r hr; cases hr
  | x :: rs =>
    intro r hr
    rcases List.mem_cons.mp hr with rfl | hr
    · exact acc_le_foldl_max rs r.timePeriod
    · exact mem_le_foldl_max rs x.timePeriod r hr

lemma rankEntries_map_rank (l : List Row) :
    (rankEntries l).map (fun e => e.rank) = List.range' 1 l.length := by
  unfold rankEntries
  rw [List.map_map]
  have h1 : ((fun e : RankEntry => e.rank) ∘ fun p : Nat × Row =>
      RankEntry.mk (p.1 + 1) p.2.areaCode p.2.areaName (round2 (valOf p.2))
        p.2.denominator) = (fun i => i + 1) ∘ Prod.fst := rfl
  rw [h1, ← List.map_map, List.enum_map_fst, List.range'_eq_map_range]
  exact List.map_congr_left (fun i _ => Nat.add_comm i 1)

/-- Any member of the first `n` rows of a sorted list is related to every
list member outside that prefix. -/
lemma sorted_take_rel {r : Row → Row → Prop} [DecidableRel r] [IsTotal Row r]
    [IsTrans Row r] {l : List Row} {n : Nat} {e x : Row}
    (he : e ∈ (List.insertionSort r l).take n) (hx : x ∈ l)
    (hnx : x ∉ (List.insertionSort r l).take n) : r e x := by
  have hxL : x ∈ List.insertionSort r l :=
    ((List.perm_insertionSort r l).mem_iff).mpr hx
  have hsorted : List.Pairwise r (List.insertionSort r l) :=
    List.sorted_insertionSort r l
  rw [← List.take_append_drop n (List.insertionSort r l)] at hsorted hxL
  obtain ⟨-, -, hcross⟩ := List.pairwise_append.mp hsorted
  rcases List.mem_append.mp hxL with hxT | hxD
  · exact absurd hxT hnx
  · exact hcross e he x hxD

/-- A row selected by `nlargest n` is beaten by fewer than `n` rows. -/
lemma countGT_lt_of_mem_nlargest {n : Nat} {l : List Row} {r : Row}
    (h : r ∈ nlargest n l) :
    r ∈ l ∧ (l.filter (fun s => decide (valOf r < valOf s))).length < n := by
  have hperm := List.perm_insertionSort descVal l
  constructor
  · exact hperm.mem_iff.mp (List.mem_of_mem_take h)
  · have hlen : (l.filter (fun s => decide (valOf r < valOf s))).length =
        ((List.insertionSort descVal l).filter
          (fun s => decide (valOf r < valOf s))).length :=
      ((List.Perm.filter _ hperm).length_eq).symm
    rw [hlen, ← List.take_append_drop n (List.insertionSort descVal l),
      List.filter_append, List.length_append]
    have hdrop : ((List.insertionSort descVal l).drop n).filter
        (fun s => decide (valOf r < valOf s)) = [] := by
      refine List.filter_eq_nil_iff.mpr (fun b hb => ?_)
      have hsorted : List.Pairwise descVal (List.insertionSort descVal l) :=
        List.sorted_insertionSort descVal l
      rw [← List.take_append_drop n (List.insertionSort descVal l)] at hsorted
      obtain ⟨-, -, hcross⟩ := List.pairwise_append.mp hsorted
      have hrb : valOf b ≤ valOf r := hcross r h b hb
      simp [not_lt_of_le hrb]
    have htake : (((List.insertionSort descVal l).take n).filter
        (fun s => decide (valOf r < valOf s))).length <
        (((List.insertionSort descVal l).take n)).length :=
      List.length_filter_lt_length_iff_exists.mpr ⟨r, h, by simp⟩
    have hle := List.length_take_le n (List.insertionSort descVal l)
    rw [hdrop]
    simpa using lt_of_lt_of_le htake hle

/-- A row selected by `nsmallest n` beats fewer than `n` rows. -/
lemma countLT_lt_of_mem_nsmallest {n : Nat} {l : List Row} {r : Row}
    (h : r ∈ nsmallest n l) :
    r ∈ l ∧ (l.filter (fun s => decide (valOf s < valOf r))).length < n := by
  have hperm := List.perm_insertionSort ascVal l
  constructor
  · exact hperm.mem_iff.mp (List.mem_of_mem_take h)
  · have hlen : (l.filter (fun s => decide (valOf s < valOf r))).length =
        ((List.insertionSort ascVal l).filter
          (fun s => decide (valOf s < valOf r))).length :=
      ((List.Perm.filter _ hperm).length_eq).symm
    rw [hlen, ← List.take_append_drop n (List.insertionSort ascVal l),
      List.filter_append, List.length_append]
    have hdrop : ((List.insertionSort ascVal l).drop n).filter
        (fun s => decide (valOf s < valOf r)) = [] := by
      refine List.filter_eq_nil_iff.mpr (fun b hb => ?_)
      have hsorted : List.Pairwise ascVal (List.insertionSort ascVal l) :=
        List.sorted_insertionSort ascVal l
      rw [← List.take_append_drop n (List.insertionSort ascVal l)] at hsorted
      obtain ⟨-, -, hcross⟩ := List.pairwise_append.mp hsorted
      have hrb : valOf r ≤ valOf b := hcross r h b hb
      simp [not_lt_of_le hrb]
    have htake : (((List.insertionSort ascVal l).take n).filter
        (fun s => decide (valOf s < valOf r))).length <
        (((List.insertionSort ascVal l).take n)).length :=
      List.length_filter_lt_length_iff_exists.mpr ⟨r, h, by simp⟩
    have hle := List.length_take_le n (List.insertionSort ascVal l)
    rw [hdrop]
    simpa using lt_of_lt_of_le htake hle

/-- Every row's value is greater than, less than, or equal to `v`: the
three filters partition the list. -/
lemma filter_length_partition (v : ℚ) (l : List Row) :
    l.length = (l.filter (fun s => decide (v < valOf s))).length +
      (l.filter (fun s => decide (valOf s < v))).length +
      (l.filter (fun s => decide (valOf s = v))).length := by
  induction l with
  | nil => rfl
  | cons h t ih =>
    rcases lt_trichotomy v (valOf h) with hlt | heq | hgt
    · have h1 : decide (v < valOf h) = true := decide_eq_true hlt
      have h2 : decide (valOf h < v) = false := decide_eq_false (asymm hlt)
      have h3 : decide (valOf h = v) = false :=
        decide_eq_false (fun hc => absurd (hc ▸ hlt) (lt_irrefl _))
      simp only [List.filter_cons, h1, h2, h3, List.length_cons, if_true,
        if_false, Bool.false_eq_true, ite_false, ite_true]
      omega
    · have h1 : decide (v < valOf h) = false :=
        decide_eq_false (fun hc => absurd (heq ▸ hc) (lt_irrefl _))
      have h2 : decide (valOf h < v) = false :=
        decide_eq_false (fun hc => absurd (heq ▸ hc) (lt_irrefl _))
      have h3 : decide (valOf h = v) = true := decide_eq_true heq.symm
      simp only [List.filter_cons, h1, h2, h3, List.length_cons,
        Bool.false_eq_true, ite_false, ite_true]
      omega
    · have h1 : decide (v < valOf h) = false := decide_eq_false (asymm hgt)
      have h2 : decide (valOf h < v) = true := decide_eq_true hgt
      have h3 : decide (valOf h = v) = false :=
        decide_eq_false (fun hc => absurd (hc ▸ hgt) (lt_irrefl _))
      simp only [List.filter_cons, h1, h2, h3, List.length_cons,
        Bool.false_eq_true, ite_false, ite_true]
      omega

/-- With pairwise-distinct values, at most one row carries the value `v`. -/
lemma count_value_le_one {l : List Row} (v : ℚ)
    (hvals : l.Pairwise (fun a b => valOf a ≠ valOf b)) :
    (l.filter (fun s => decide (valOf s = v))).length ≤ 1 := by
  have hp : (l.filter (fun s => decide (valOf s = v))).Pairwise
      (fun a b => valOf a ≠ valOf b) := hvals.filter _
  match hf : l.filter (fun s => decide (valOf s = v)) with
  | [] => simp
  | [a] => simp
  | a :: b :: t =>
    exfalso
    rw [hf] at hp
    have hab : valOf a ≠ valOf b :=
      (List.pairwise_cons.mp hp).1 b (List.mem_cons_self _ _)
    have hamem : a ∈ List.filter (fun s => decide (valOf s = v)) l := by
      rw [hf]; exact List.mem_cons_self _ _
    have hbmem : b ∈ List.filter (fun s => decide (valOf s = v)) l := by
      rw [hf]; exact List.mem_cons_of_mem _ (List.mem_cons_self _ _)
    have ha := List.of_mem_filter hamem
    have hb := List.of_mem_filter hbmem
    exact hab ((of_decide_eq_true ha).trans (of_decide_eq_true hb).symm)

lemma rankEntries_map_code (l : List Row) :
    (rankEntries l).map (fun e => e.area_code) = l.map (fun r => r.areaCode) := by
  unfold rankEntries
  rw [List.map_map]
  have h1 : ((fun e : RankEntry => e.area_code) ∘ fun p : Nat × Row =>
      RankEntry.mk (p.1 + 1) p.2.areaCode p.2.areaName (round2 (valOf p.2))
        p.2.denominator) = (fun r : Row => r.areaCode) ∘ Prod.snd := rfl
  rw [h1, ← List.map_map, List.enum_map_snd]

/-- The counting argument behind the amended claim C6: with at least ten
rows of pairwise distinct values and area codes, the top-5 and bottom-5
selections share no area code. -/
lemma top_bottom_disjoint_codes {dn : List Row}
    (hvals : dn.Pairwise (fun a b => valOf a ≠ valOf b))
    (hcodes : dn.Pairwise (fun a b => a.areaCode ≠ b.areaCode))
    (hlen : 10 ≤ dn.length) :
    ∀ a, a ∈ (nlargest 5 dn).map (fun r => r.areaCode) →
      a ∉ (nsmallest 5 dn).map (fun r => r.areaCode) := by
  intro a haT haB
  obtain ⟨r, hrT, hra⟩ := List.mem_map.mp haT
  obtain ⟨s, hsB, hsa⟩ := List.mem_map.mp haB
  obtain ⟨hrl, hcntGT⟩ := countGT_lt_of_mem_nlargest hrT
  obtain ⟨hsl, hcntLT⟩ := countLT_lt_of_mem_nsmallest hsB
  have hsym : Symmetric (fun a b : Row => a.areaCode ≠ b.areaCode) :=
    fun x y hxy hc => hxy hc.symm
  have hrs : r = s := by
    by_contra hne
    exact (hcodes.forall hsym hrl hsl hne) (hra.trans hsa.symm)
  subst hrs
  have hpart := filter_length_partition (valOf r) dn
  have hone := count_value_le_one (valOf r) hvals
  omega

lemma ratFloor_le (x : ℚ) : ((Rat.floor x : ℤ) : ℚ) ≤ x :=
  Rat.le_floor.mp (le_refl _)

lemma lt_ratFloor_add_one (x : ℚ) : x < ((Rat.floor x + 1 : ℤ) : ℚ) := by
  by_contra hc
  push_neg at hc
  have h := Rat.le_floor.mpr hc
  omega

lemma ratFloor_mono {x y : ℚ} (h : x ≤ y) : Rat.floor x ≤ Rat.floor y :=
  Rat.le_floor.mpr (le_trans (ratFloor_le x) h)

lemma roundHalfEven_mono {x y : ℚ} (h : x ≤ y) :
    roundHalfEven x ≤ roundHalfEven y := by
  simp only [roundHalfEven]
  have hf := ratFloor_mono h
  rcases lt_or_eq_of_le hf with hlt | heq
  · split_ifs <;> omega
  · rw [← heq]
    split_ifs <;> first | omega | (exfalso; linarith)

lemma round2_mono {x y : ℚ} (h : x ≤ y) : round2 x ≤ round2 y := by
  unfold round2
  have h2 := roundHalfEven_mono (show x * 100 ≤ y * 100 by linarith)
  have h3 : ((roundHalfEven (x * 100) : ℤ) : ℚ) ≤
      ((roundHalfEven (y * 100) : ℤ) : ℚ) := by exact_mod_cast h2
  linarith

lemma foldl_min_le_acc (t : List ℚ) (acc : ℚ) : t.foldl min acc ≤ acc := by
  induction t generalizing acc with
  | nil => exact le_refl _
  | cons h t ih =>
    rw [List.foldl_cons]
    exact le_trans (ih _) (min_le_left _ _)

lemma foldl_min_le_mem (t : List ℚ) (acc : ℚ) :
    ∀ x ∈ t, t.foldl min acc ≤ x := by
  induction t generalizing acc with
  | nil => intro x hx; cases hx
  | cons h t ih =>
    intro x hx
    rw [List.foldl_cons]
    rcases List.mem_cons.mp hx with rfl | hx
    · exact le_trans (foldl_min_le_acc _ _) (min_le_right _ _)
    · exact ih _ x hx

lemma listMin_le_mem {l : List ℚ} : ∀ x ∈ l, listMin l ≤ x := by
  match l with
  | [] => intro x hx; cases hx
  | h :: t =>
    intro x hx
    rcases List.mem_cons.mp hx with rfl | hx
    · exact foldl_min_le_acc t x
    · exact foldl_min_le_mem t h x hx

lemma acc_le_foldl_max_q (t : List ℚ) (acc : ℚ) : acc ≤ t.foldl max acc := by
  induction t generalizing acc with
  | nil => exact le_refl _
  | cons h t ih =>
    rw [List.foldl_cons]
    exact le_trans (le_max_left _ _) (ih _)

lemma mem_le_foldl_max_q (t : List ℚ) (acc : ℚ) :
    ∀ x ∈ t, x ≤ t.foldl max acc := by
  induction t generalizing acc with
  | nil => intro x hx; cases hx
  | cons h t ih =>
    intro x hx
    rw [List.foldl_cons]
    rcases List.mem_cons.mp hx with rfl | hx
    · exact le_trans (le_max_right _ _) (acc_le_foldl_max_q _ _)
    · exact ih _ x hx

lemma mem_le_listMax {l : List ℚ} : ∀ x ∈ l, x ≤ listMax l := by
  match l with
  | [] => intro x hx; cases hx
  | h :: t =>
    intro x hx
    rcases List.mem_cons.mp hx with rfl | hx
    · exact acc_le_foldl_max_q t x
    · exact mem_le_foldl_max_q t h x hx

lemma getD_eq_get (l : List ℚ) (i : Nat) (h : i < l.length) :
    l.getD i 0 = l.get ⟨i, h⟩ := by
  simp [List.getD_eq_getElem?_getD, List.getElem?_eq_getElem h, List.get_eq_getElem]

lemma getD_mem {l : List ℚ} {i : Nat} (h : i < l.length) : l.getD i 0 ∈ l := by
  rw [getD_eq_get l i h]
  exact List.get_mem l i h

lemma getD_sorted_mono {s : List ℚ} (hs : List.Sorted (· ≤ ·) s) {i j : Nat}
    (hij : i ≤ j) (hj : j < s.length) : s.getD i 0 ≤ s.getD j 0 := by
  have hi : i < s.length := lt_of_le_of_lt hij hj
  rw [getD_eq_get s i hi, getD_eq_get s j hj]
  exact hs.rel_get_of_le hij

lemma sortedAsc_sorted (l : List ℚ) : List.Sorted (· ≤ ·) (sortedAsc l) :=
  List.sorted_insertionSort _ l

lemma sortedAsc_length (l : List ℚ) : (sortedAsc l).length = l.length :=
  List.length_insertionSort _ l

lemma sortedAsc_mem {l : List ℚ} {x : ℚ} : x ∈ sortedAsc l ↔ x ∈ l :=
  (List.perm_insertionSort _ l).mem_iff

/-- The standard facts about the interpolation indices: the floor position
is a valid index below `pos`, and `pos` lies within one of it. -/
lemma interp_idx {s : List ℚ} {pos : ℚ} (h0 : 0 ≤ pos)
    (h1 : pos ≤ (s.length : ℚ) - 1) :
    ((Rat.floor pos).toNat : ℚ) ≤ pos ∧
      pos < ((Rat.floor pos).toNat : ℚ) + 1 ∧
      (Rat.floor pos).toNat + 1 ≤ s.length := by
  have hfnn : 0 ≤ Rat.floor pos := Rat.le_floor.mpr (by exact_mod_cast h0)
  have hcast : (((Rat.floor pos).toNat : ℕ) : ℚ) = ((Rat.floor pos : ℤ) : ℚ) := by
    exact_mod_cast congrArg (fun z : ℤ => (z : ℚ)) (Int.toNat_of_nonneg hfnn)
  have hle : ((Rat.floor pos).toNat : ℚ) ≤ pos := by
    rw [hcast]; exact ratFloor_le pos
  have hlt : pos < ((Rat.floor pos).toNat : ℚ) + 1 := by
    have h2 := lt_ratFloor_add_one pos
    rw [hcast]
    push_cast at h2
    linarith
  refine ⟨hle, hlt, ?_⟩
  have hq : (((Rat.floor pos).toNat : ℕ) : ℚ) + 1 ≤ (s.length : ℚ) := by
    linarith
  exact_mod_cast hq

lemma interpolate_bounds {s : List ℚ} (hs : List.Sorted (· ≤ ·) s)
    {pos : ℚ} (h0 : 0 ≤ pos) (h1 : pos ≤ (s.length : ℚ) - 1) :
    s.getD (Rat.floor pos).toNat 0 ≤ interpolate s pos ∧
      interpolate s pos ≤
        s.getD (min ((Rat.floor pos).toNat + 1) (s.length - 1)) 0 := by
  obtain ⟨hle, hlt, hidx⟩ := interp_idx h0 h1
  have hf0 : 0 ≤ pos - ((Rat.floor pos).toNat : ℚ) := by linarith
  have hf1 : pos - ((Rat.floor pos).toNat : ℚ) ≤ 1 := by linarith
  have hlohi : (Rat.floor pos).toNat ≤ min ((Rat.floor pos).toNat + 1) (s.length - 1) := by
    omega
  have hhilt : min ((Rat.floor pos).toNat + 1) (s.length - 1) < s.length := by
    omega
  have hg : s.getD (Rat.floor pos).toNat 0 ≤
      s.getD (min ((Rat.floor pos).toNat + 1) (s.length - 1)) 0 :=
    getD_sorted_mono hs hlohi hhilt
  unfold interpolate
  constructor
  · have hm := mul_nonneg hf0 (sub_nonneg.mpr hg)
    linarith
  · have hm := mul_le_mul_of_nonneg_right hf1 (sub_nonneg.mpr hg)
    linarith

lemma interpolate_mono {s : List ℚ} (hs : List.Sorted (· ≤ ·) s)
    {p q : ℚ} (h0 : 0 ≤ p) (hpq : p ≤ q) (h1 : q ≤ (s.length : ℚ) - 1) :
    interpolate s p ≤ interpolate s q := by
  have h1p : p ≤ (s.length : ℚ) - 1 := le_trans hpq h1
  have h0q : 0 ≤ q := le_trans h0 hpq
  obtain ⟨hlep, hltp, hidxp⟩ := interp_idx h0 h1p
  obtain ⟨hleq, hltq, hidxq⟩ := interp_idx h0q h1
  have hfmono : (Rat.floor p).toNat ≤ (Rat.floor q).toNat :=
    Int.toNat_le_toNat (ratFloor_mono hpq)
  rcases Nat.lt_or_ge (Rat.floor p).toNat (Rat.floor q).toNat with hlt | hge
  · -- distinct floors: chain through the sorted values
    have hbp := (interpolate_bounds hs h0 h1p).2
    have hbq := (interpolate_bounds hs h0q h1).1
    have hmid : s.getD (min ((Rat.floor p).toNat + 1) (s.length - 1)) 0 ≤
        s.getD (Rat.floor q).toNat 0 := by
      refine getD_sorted_mono hs ?_ (by omega)
      omega
    linarith
  · -- equal floors: the interpolation is monotone in the fraction
    have heq : (Rat.floor p).toNat = (Rat.floor q).toNat :=
      le_antisymm hfmono hge
    have hg : s.getD (Rat.floor p).toNat 0 ≤
        s.getD (min ((Rat.floor p).toNat + 1) (s.length - 1)) 0 :=
      getD_sorted_mono hs (by omega) (by omega)
    unfold interpolate
    rw [← heq]
    have hm := mul_le_mul_of_nonneg_right
      (show p - ((Rat.floor p).toNat : ℚ) ≤ q - ((Rat.floor p).toNat : ℚ) by linarith)
      (sub_nonneg.mpr hg)
    nlinarith [sub_nonneg.mpr hg, hm]

lemma quantile_pos_nonneg {l : List ℚ} (hne : l ≠ []) {q : ℚ} (h0 : 0 ≤ q) :
    0 ≤ q * ((l.length : ℚ) - 1) := by
  have hlen : 1 ≤ l.length := List.length_pos.mpr hne
  have h1q : (1 : ℚ) ≤ (l.length : ℚ) := by exact_mod_cast hlen
  exact mul_nonneg h0 (by linarith)

lemma quantile_pos_le {l : List ℚ} (hne : l ≠ []) {q : ℚ} (h1 : q ≤ 1) :
    q * ((l.length : ℚ) - 1) ≤ ((sortedAsc l).length : ℚ) - 1 := by
  have hlen : 1 ≤ l.length := List.length_pos.mpr hne
  have h1q : (1 : ℚ) ≤ (l.length : ℚ) := by exact_mod_cast hlen
  rw [sortedAsc_length]
  have := mul_le_mul_of_nonneg_right h1 (show (0 : ℚ) ≤ (l.length : ℚ) - 1 by linarith)
  linarith

lemma quantile_mono {l : List ℚ} (hne : l ≠ []) {q q' : ℚ}
    (h0 : 0 ≤ q) (hqq : q ≤ q') (h1 : q' ≤ 1) :
    quantile l q ≤ quantile l q' := by
  match l, hne with
  | h :: t, _ =>
    show interpolate (sortedAsc (h :: t)) _ ≤ interpolate (sortedAsc (h :: t)) _
    have hne2 : h :: t ≠ [] := List.cons_ne_nil h t
    refine interpolate_mono (sortedAsc_sorted _) (quantile_pos_nonneg hne2 h0) ?_ ?_
    · have hlen : (0 : ℚ) ≤ ((h :: t).length : ℚ) - 1 := by
        have : (1 : ℚ) ≤ ((h :: t).length : ℚ) := by exact_mod_cast List.length_pos.mpr hne2
        linarith
      exact mul_le_mul_of_nonneg_right hqq hlen
    · exact quantile_pos_le hne2 h1

lemma listMin_le_quantile {l : List ℚ} (hne : l ≠ []) {q : ℚ}
    (h0 : 0 ≤ q) (h1 : q ≤ 1) : listMin l ≤ quantile l q := by
  match l, hne with
  | h :: t, _ =>
    show listMin (h :: t) ≤ interpolate (sortedAsc (h :: t)) _
    have hne2 : h :: t ≠ [] := List.cons_ne_nil h t
    have hb := (interpolate_bounds (sortedAsc_sorted (h :: t))
      (quantile_pos_nonneg hne2 h0) (quantile_pos_le hne2 h1)).1
    refine le_trans ?_ hb
    refine listMin_le_mem _ (sortedAsc_mem.mp (getD_mem ?_))
    obtain ⟨-, -, hidx⟩ := interp_idx (s := sortedAsc (h :: t))
      (quantile_pos_nonneg hne2 h0) (quantile_pos_le hne2 h1)
    omega

lemma quantile_le_listMax {l : List ℚ} (hne : l ≠ []) {q : ℚ}
    (h0 : 0 ≤ q) (h1 : q ≤ 1) : quantile l q ≤ listMax l := by
  match l, hne with
  | h :: t, _ =>
    show interpolate (sortedAsc (h :: t)) _ ≤ listMax (h :: t)
    have hne2 : h :: t ≠ [] := List.cons_ne_nil h t
    have hb := (interpolate_bounds (sortedAsc_sorted (h :: t))
      (quantile_pos_nonneg hne2 h0) (quantile_pos_le hne2 h1)).2
    refine le_trans hb ?_
    refine mem_le_listMax _ (sortedAsc_mem.mp (getD_mem ?_))
    obtain ⟨-, -, hidx⟩ := interp_idx (s := sortedAsc (h :: t))
      (quantile_pos_nonneg hne2 h0) (quantile_pos_le hne2 h1)
    omega

-- ===========================================================================
-- Claims
-- ===========================================================================

/-- Claim C1: for every indicator and area type for which the fetched
dataset has at least one row of that area type, `filter_data` called with
no time period resolves the period to the maximum time-period string among
the area-type rows (a genuine maximum: it is attained and bounds every
such row), filters to that period, and returns the filtered rows together
with the resolved period string. -/
theorem filter_data_resolves_latest_period (fetch : Nat → List Row)
    (cache : CacheState) (iid : Nat) (at_ : String) (df : List Row)
    (hdf : df = (get_indicator_data fetch cache iid).1.filter
      (fun r => r.areaType == at_))
    (hne : df ≠ []) :
    filter_data fetch cache iid at_ none =
      (Except.ok (df.filter (fun r => r.timePeriod == maxTimePeriod df),
        maxTimePeriod df), (get_indicator_data fetch cache iid).2) ∧
      (∃ r ∈ df, r.timePeriod = maxTimePeriod df) ∧
      (∀ r ∈ df, strLe r.timePeriod (maxTimePeriod df) = true) := by
  subst hdf
  refine ⟨?_, maxTimePeriod_mem hne, le_maxTimePeriod⟩
  have hdf2 : ¬((get_indicator_data fetch cache iid).1.filter
      (fun r => r.areaType == at_)).filter
      (fun r => r.timePeriod == maxTimePeriod
        ((get_indicator_data fetch cache iid).1.filter
          (fun r => r.areaType == at_))) = [] := by
    obtain ⟨r, hr, hrp⟩ := maxTimePeriod_mem hne
    intro hnil
    have hmem : r ∈ ((get_indicator_data fetch cache iid).1.filter
        (fun r => r.areaType == at_)).filter
        (fun r => r.timePeriod == maxTimePeriod
          ((get_indicator_data fetch cache iid).1.filter
            (fun r => r.areaType == at_))) :=
      List.mem_filter.mpr ⟨hr, by simp [hrp]⟩
    rw [hnil] at hmem
    cases hmem
  simp only [filter_data]
  rw [if_neg hne, if_neg hdf2]

/-- Claim C1 witness: a concrete dataset with two periods resolves to the
later one. -/
theorem filter_data_resolves_latest_period_witness :
    filter_data exFetch1 cache0 94146 "ICBs" none =
      (Except.ok ([exRow1], "2023/24"),
        CacheState.mk [(94146, [exRow0, exRow1])] none) := by
  have h := filter_data_resolves_latest_period exFetch1 cache0 94146 "ICBs"
    [exRow0, exRow1] (by decide) (by decide)
  rw [h.1]
  decide

/-- Claim C2: `filter_data` fails with a 404 `NotFound` exactly when the
area-type filter or the subsequent time-period filter yields zero rows; an
empty area-type filter fails with the area-type message for every requested
time period, i.e. before any time-period resolution, and in every other
case no error is raised. -/
theorem filter_data_notfound_iff (fetch : Nat → List Row) (cache : CacheState)
    (iid : Nat) (at_ : String) (tp? : Option String) (df : List Row) (tp : String)
    (hdf : df = (get_indicator_data fetch cache iid).1.filter
      (fun r => r.areaType == at_))
    (htp : tp = (match tp? with | some t => t | none => maxTimePeriod df)) :
    (df = [] → filter_data fetch cache iid at_ tp? =
      (Except.error (HTTPError.mk 404 ("No data for area type " ++ at_)),
        (get_indicator_data fetch cache iid).2)) ∧
    ((∃ e, (filter_data fetch cache iid at_ tp?).1 = Except.error e) ↔
      (df = [] ∨ df.filter (fun r => r.timePeriod == tp) = [])) := by
  subst htp
  subst hdf
  constructor
  · intro hnil
    simp only [filter_data]
    rw [if_pos hnil]
  · simp only [filter_data]
    set D := (get_indicator_data fetch cache iid).1.filter
      (fun r => r.areaType == at_) with hD
    set tpv := (match tp? with | some t => t | none => maxTimePeriod D) with htv
    by_cases hnil : D = []
    · rw [if_pos hnil]
      exact ⟨fun _ => Or.inl hnil,
        fun _ => ⟨HTTPError.mk 404 ("No data for area type " ++ at_), rfl⟩⟩
    · rw [if_neg hnil]
      by_cases h2 : D.filter (fun r => r.timePeriod == tpv) = []
      · rw [if_pos h2]
        exact ⟨fun _ => Or.inr h2,
          fun _ => ⟨HTTPError.mk 404 ("No data for time period " ++ tpv), rfl⟩⟩
      · rw [if_neg h2]
        constructor
        · rintro ⟨e, he⟩
          exact absurd he (by simp)
        · rintro (h | h)
          · exact absurd h hnil
          · exact absurd h h2

/-- Claim C2 witness: a request for an area type with no rows fails with
the area-type 404 even though the requested time period does not exist
either, and a request for a present area type with an absent explicit
period fails with the time-period 404. -/
theorem filter_data_notfound_iff_witness :
    filter_data exFetch1 cache0 94146 "GPs" (some "1999/00") =
      (Except.error (HTTPError.mk 404 "No data for area type GPs"),
        CacheState.mk [(94146, [exRow0, exRow1])] none) ∧
    (∃ e, (filter_data exFetch1 cache0 94146 "ICBs" (some "1999/00")).1 =
      Except.error e) := by
  constructor
  · exact (filter_data_notfound_iff exFetch1 cache0 94146 "GPs"
      (some "1999/00") [] "1999/00" (by decide) rfl).1 rfl
  · exact (filter_data_notfound_iff exFetch1 cache0 94146 "ICBs"
      (some "1999/00") [exRow0, exRow1] "1999/00" (by decide) rfl).2.mpr
      (Or.inr (by decide))

/-- Claim C10: when zero rows of the dataset match the requested area type,
`/time-periods` does not fail (its result type is error-free by
construction, unlike `filter_data`, which 404s on the same input): it
returns an empty `time_periods` list and `latest = null`. -/
theorem list_time_periods_empty_ok (fetch : Nat → List Row)
    (cache : CacheState) (iid : Nat) (at_ : String)
    (hdf : (get_indicator_data fetch cache iid).1.filter
      (fun r => r.areaType == at_) = []) :
    list_time_periods fetch cache iid at_ =
      (TimePeriodsOut.mk [] none,
        (get_indicator_data fetch cache iid).2) ∧
    (filter_data fetch cache iid at_ none).1 =
      Except.error (HTTPError.mk 404 ("No data for area type " ++ at_)) := by
  constructor
  · simp only [list_time_periods, hdf]
    rfl
  · simp [filter_data, hdf]

/-- Claim C10 witness: the concrete dataset has no `GPs` rows, and
`/time-periods` succeeds with an empty list while `filter_data` 404s. -/
theorem list_time_periods_empty_ok_witness :
    list_time_periods exFetch1 cache0 94146 "GPs" =
      (TimePeriodsOut.mk [] none,
        CacheState.mk [(94146, [exRow0, exRow1])] none) ∧
    (filter_data exFetch1 cache0 94146 "GPs" none).1 =
      Except.error (HTTPError.mk 404 "No data for area type GPs") := by
  have h := list_time_periods_empty_ok exFetch1 cache0 94146 "GPs" (by decide)
  exact ⟨by rw [h.1]; decide, h.2⟩

/-- Claim C3 counterexample: on the concrete dataset the single ICB row for
the latest period has value 50, so the optional filter `min_value = 90`
leaves zero rows — yet `/data` returns a successful response with
`count = 0` and an empty `data` list instead of halting with an error.
This refutes the claim that every filtering stage yielding zero rows halts
the request. -/
theorem get_data_empty_after_filters_counterexample :
    (get_data exFetch1 cache0 94146 "ICBs" none none (some 90) none none).1 =
      Except.ok (DataOut.mk "2023/24" 0 []) := by
  decide

/-- Claim C3 (amended): only the two stages inside `filter_data` (area
type, then time period) halt a `/data` request when they yield zero rows:
`get_data` fails with an error exactly when `filter_data` fails, and with
the same error; the optional area-name and value-range filters never halt
the request, which otherwise succeeds even with zero remaining rows. -/
theorem get_data_error_iff_filter_error (fetch : Nat → List Row)
    (cache : CacheState) (iid : Nat) (at_ : String) (tp? : Option String)
    (pat : Option String) (mn mx : Option ℚ) (lim : Option Nat) (e : HTTPError) :
    (get_data fetch cache iid at_ tp? pat mn mx lim).1 = Except.error e ↔
      (filter_data fetch cache iid at_ tp?).1 = Except.error e := by
  cases hfd : filter_data fetch cache iid at_ tp? with
  | mk res c =>
    cases res with
    | error e0 => simp [get_data, hfd]
    | ok pr =>
      cases pr with
      | mk df0 period => simp [get_data, hfd]

/-- Claim C5: whenever `filter_data` succeeds, `/rankings` drops the rows
with missing value, selects the `n` largest-valued rows for `order=top`
(smallest for `order=bottom`, stably, hence deterministically), and the
returned entries carry 1-based ranks forming the strictly increasing
sequence `1, …, min n k` where `k` counts the rows with a non-missing
value; every selected row's value bounds every unselected row's value. -/
theorem get_rankings_ranks_and_selection (fetch : Nat → List Row)
    (cache : CacheState) (iid : Nat) (at_ : String) (tp? : Option String)
    (n : Nat) (ord : RankOrder) (df : List Row) (period : String)
    (c : CacheState) (dn sel : List Row)
    (hok : filter_data fetch cache iid at_ tp? = (Except.ok (df, period), c))
    (hdn : dn = df.filter (fun r => r.value.isSome))
    (hsel : sel = (match ord with
      | RankOrder.top => nlargest n dn
      | RankOrder.bottom => nsmallest n dn)) :
    get_rankings fetch cache iid at_ tp? n ord =
      (Except.ok (RankingsOut.mk period ord (rankEntries sel)), c) ∧
    rankingsSpec dn sel n ord
      (RankingsOut.mk period ord (rankEntries sel)) := by
  subst hdn
  subst hsel
  constructor
  · simp only [get_rankings, hok]
  · refine ⟨?_, rfl, ?_⟩
    · show (rankEntries _).map (fun e => e.rank) = _
      rw [rankEntries_map_rank]
      congr 1
      cases ord with
      | top =>
        simp [nlargest, List.length_take, List.length_insertionSort]
      | bottom =>
        simp [nsmallest, List.length_take, List.length_insertionSort]
    · intro e he x hx hnx
      cases ord with
      | top =>
        refine ⟨fun _ => ?_, fun hc => RankOrder.noConfusion hc⟩
        exact sorted_take_rel (r := descVal) he hx hnx
      | bottom =>
        refine ⟨fun hc => RankOrder.noConfusion hc, fun _ => ?_⟩
        exact sorted_take_rel (r := ascVal) he hx hnx

/-- Claim C5 witness: on the six-row dataset, `/rankings` with `n = 2`,
`order=top` satisfies the ranking specification. -/
theorem get_rankings_ranks_and_selection_witness :
    (filter_data exFetchC6 cache0 94146 "ICBs" none =
      (Except.ok (exRowsC6, "2023/24"),
        CacheState.mk [(94146, exRowsC6)] none)) ∧
    (get_rankings exFetchC6 cache0 94146 "ICBs" none 2 RankOrder.top =
      (Except.ok (RankingsOut.mk "2023/24" RankOrder.top
        (rankEntries (nlargest 2 exRowsC6))),
        CacheState.mk [(94146, exRowsC6)] none) ∧
      rankingsSpec exRowsC6 (nlargest 2 exRowsC6) 2 RankOrder.top
        (RankingsOut.mk "2023/24" RankOrder.top
          (rankEntries (nlargest 2 exRowsC6)))) := by
  refine ⟨by decide, ?_⟩
  exact get_rankings_ranks_and_selection exFetchC6 cache0 94146 "ICBs" none 2
    RankOrder.top exRowsC6 "2023/24" (CacheState.mk [(94146, exRowsC6)] none)
    exRowsC6 (nlargest 2 exRowsC6) (by decide) (by decide) rfl

/-- Claim C6 counterexample: on a dataset of six areas with pairwise
distinct values and area codes (so strictly more than 5 distinct areas),
area `A2` appears in both the top-5 and the bottom-5 rankings: with 6
areas the two selections of 5 necessarily overlap, refuting the claim
that they are disjoint whenever more than 5 distinct areas exist. -/
theorem rankings_top_bottom_overlap_counterexample :
    (get_rankings exFetchC6 cache0 94146 "ICBs" none 5 RankOrder.top).1 =
      Except.ok (RankingsOut.mk "2023/24" RankOrder.top
        (rankEntries (nlargest 5 exRowsC6))) ∧
    (get_rankings exFetchC6 cache0 94146 "ICBs" none 5 RankOrder.bottom).1 =
      Except.ok (RankingsOut.mk "2023/24" RankOrder.bottom
        (rankEntries (nsmallest 5 exRowsC6))) ∧
    "A2" ∈ (rankEntries (nlargest 5 exRowsC6)).map (fun e => e.area_code) ∧
    "A2" ∈ (rankEntries (nsmallest 5 exRowsC6)).map (fun e => e.area_code) ∧
    ((exRowsC6.map (fun r => r.areaCode)).dedup).length = 6 := by
  refine ⟨rfl, rfl, ?_, ?_, by decide⟩
  · rw [rankEntries_map_code]
    decide
  · rw [rankEntries_map_code]
    decide

/-- Claim C6 (amended): the top-5 and bottom-5 rankings on the same
filtered data select disjoint sets of areas provided the rows surviving
`dropna` have pairwise distinct values and pairwise distinct area codes
and number at least 10.  (The counterexample forces raising the claim's
threshold from more-than-5 distinct areas to at-least-10 rows; the
distinctness hypotheses rule out the remaining overlaps, through ties or
one area appearing in several rows.) -/
theorem rankings_top_bottom_disjoint (fetch : Nat → List Row)
    (cache : CacheState) (iid : Nat) (at_ : String) (tp? : Option String)
    (df : List Row) (period : String) (c : CacheState) (dn : List Row)
    (hok : filter_data fetch cache iid at_ tp? = (Except.ok (df, period), c))
    (hdn : dn = df.filter (fun r => r.value.isSome))
    (hvals : dn.Pairwise (fun a b => valOf a ≠ valOf b))
    (hcodes : dn.Pairwise (fun a b => a.areaCode ≠ b.areaCode))
    (hlen : 10 ≤ dn.length) :
    (get_rankings fetch cache iid at_ tp? 5 RankOrder.top =
      (Except.ok (RankingsOut.mk period RankOrder.top
        (rankEntries (nlargest 5 dn))), c)) ∧
    (get_rankings fetch cache iid at_ tp? 5 RankOrder.bottom =
      (Except.ok (RankingsOut.mk period RankOrder.bottom
        (rankEntries (nsmallest 5 dn))), c)) ∧
    ∀ a, a ∈ (rankEntries (nlargest 5 dn)).map (fun e => e.area_code) →
      a ∉ (rankEntries (nsmallest 5 dn)).map (fun e => e.area_code) := by
  subst hdn
  refine ⟨by simp only [get_rankings, hok], by simp only [get_rankings, hok], ?_⟩
  rw [rankEntries_map_code, rankEntries_map_code]
  exact top_bottom_disjoint_codes hvals hcodes hlen

/-- Claim C6 (amended) witness: on the ten-row dataset the top-5 and
bottom-5 area sets are disjoint. -/
theorem rankings_top_bottom_disjoint_witness :
    (get_rankings exFetchTen cache0 94146 "ICBs" none 5 RankOrder.top =
      (Except.ok (RankingsOut.mk "2023/24" RankOrder.top
        (rankEntries (nlargest 5 exRowsTen))),
        CacheState.mk [(94146, exRowsTen)] none)) ∧
    (get_rankings exFetchTen cache0 94146 "ICBs" none 5 RankOrder.bottom =
      (Except.ok (RankingsOut.mk "2023/24" RankOrder.bottom
        (rankEntries (nsmallest 5 exRowsTen))),
        CacheState.mk [(94146, exRowsTen)] none)) ∧
    ∀ a, a ∈ (rankEntries (nlargest 5 exRowsTen)).map (fun e => e.area_code) →
      a ∉ (rankEntries (nsmallest 5 exRowsTen)).map (fun e => e.area_code) :=
  rankings_top_bottom_disjoint exFetchTen cache0 94146 "ICBs" none exRowsTen
    "2023/24" (CacheState.mk [(94146, exRowsTen)] none) exRowsTen (by decide)
    (by decide) (by decide) (by decide) (by decide)

/-- Claim C4: every `/summary` result computed over at least one
non-missing value satisfies `min ≤ percentile_25 ≤ median ≤
percentile_75 ≤ max`, and `areas_count` equals the number of rows with a
non-missing value in the filtered data.  (`sqrt` is the numerical square
root behind `Series.std`; the chain holds for any of its values since it
only enters the `std` field.) -/
theorem get_summary_stats_ordered (sqrt : ℚ → ℚ) (fetch : Nat → List Row)
    (cache : CacheState) (iid : Nat) (at_ : String) (tp? : Option String)
    (df : List Row) (period : String) (c : CacheState) (values : List ℚ)
    (hok : filter_data fetch cache iid at_ tp? = (Except.ok (df, period), c))
    (hvals : values = (df.filter (fun r => r.value.isSome)).map valOf)
    (hne : values ≠ []) :
    ∃ out c2, get_summary sqrt fetch cache iid at_ tp? = (Except.ok out, c2) ∧
      out.statistics.min ≤ out.statistics.percentile_25 ∧
      out.statistics.percentile_25 ≤ out.statistics.median ∧
      out.statistics.median ≤ out.statistics.percentile_75 ∧
      out.statistics.percentile_75 ≤ out.statistics.max ∧
      out.areas_count = (df.filter (fun r => r.value.isSome)).length := by
  simp only [get_summary, hok, ← hvals]
  refine ⟨_, c, rfl, ?_, ?_, ?_, ?_, ?_⟩
  · exact round2_mono (listMin_le_quantile hne (by norm_num) (by norm_num))
  · exact round2_mono (quantile_mono hne (by norm_num) (by norm_num) (by norm_num))
  · exact round2_mono (quantile_mono hne (by norm_num) (by norm_num) (by norm_num))
  · exact round2_mono (quantile_le_listMax hne (by norm_num) (by norm_num))
  · show values.length = _
    rw [hvals, List.length_map]

/-- Claim C4 witness: the summary over the concrete one-row dataset (one
non-missing value) satisfies the ordered-statistics chain. -/
theorem get_summary_stats_ordered_witness :
    ([(50 : ℚ)] ≠ ([] : List ℚ)) ∧
    (∃ out c2, get_summary id exFetch1 cache0 94146 "ICBs" none =
        (Except.ok out, c2) ∧
      out.statistics.min ≤ out.statistics.percentile_25 ∧
      out.statistics.percentile_25 ≤ out.statistics.median ∧
      out.statistics.median ≤ out.statistics.percentile_75 ∧
      out.statistics.percentile_75 ≤ out.statistics.max ∧
      out.areas_count =
        ([exRow1].filter (fun r => r.value.isSome)).length) :=
  ⟨by decide,
    get_summary_stats_ordered id exFetch1 cache0 94146 "ICBs" none [exRow1]
      "2023/24" (CacheState.mk [(94146, [exRow0, exRow1])] none) [(50 : ℚ)]
      (by decide) (by decide) (by decide)⟩

/-- Claim C7 counterexample: a `/correlation` request on a cold cache with
only one complete row fails with the InsufficientData 400 — but the cache
HAS been modified by the request (the fetched indicator dataset was cached
read-through before the check), refuting the claim that no cached state is
modified on that failure. -/
theorem correlation_cache_modified_counterexample :
    (get_correlation pearson0 exFetch1 cache0 94146 "ICBs" none).1 =
      Except.error (HTTPError.mk 400 "Insufficient data for correlation analysis") ∧
    (get_correlation pearson0 exFetch1 cache0 94146 "ICBs" none).2 ≠ cache0 := by
  exact ⟨by decide, by decide⟩

/-- Claim C7 (amended): when `filter_data` succeeds, `/correlation` fails
with the InsufficientData 400 if and only if fewer than 3 rows remain
after dropping rows missing the value or the denominator; on that failure
no result is returned (a 3-or-more count always yields a result), and the
cache is not modified beyond the read-through caching already performed by
the data fetch: the returned cache is exactly `filter_data`'s. -/
theorem get_correlation_insufficient_iff (pearson : List ℚ → List ℚ → ℚ × ℚ)
    (fetch : Nat → List Row) (cache : CacheState) (iid : Nat) (at_ : String)
    (tp? : Option String) (df : List Row) (period : String) (c : CacheState)
    (dfc : List Row)
    (hok : filter_data fetch cache iid at_ tp? = (Except.ok (df, period), c))
    (hdfc : dfc = df.filter (fun r => r.value.isSome && r.denominator.isSome)) :
    ((get_correlation pearson fetch cache iid at_ tp?).1 =
        Except.error (HTTPError.mk 400 "Insufficient data for correlation analysis") ↔
      dfc.length < 3) ∧
    (get_correlation pearson fetch cache iid at_ tp?).2 = c ∧
    (3 ≤ dfc.length →
      ∃ out, (get_correlation pearson fetch cache iid at_ tp?).1 = Except.ok out) := by
  subst hdfc
  by_cases h3 : (df.filter (fun r => r.value.isSome && r.denominator.isSome)).length < 3
  · refine ⟨⟨fun _ => h3, fun _ => ?_⟩, ?_, fun habs => absurd habs (by omega)⟩
    · simp only [get_correlation, hok]
      rw [if_pos h3]
    · simp only [get_correlation, hok]
      rw [if_pos h3]
  · refine ⟨⟨fun he => ?_, fun hc => absurd hc h3⟩, ?_, fun _ => ?_⟩
    · simp only [get_correlation, hok] at he
      rw [if_neg h3] at he
      cases he
    · simp only [get_correlation, hok]
      rw [if_neg h3]
    · simp only [get_correlation, hok]
      rw [if_neg h3]
      exact ⟨_, rfl⟩

/-- Claim C7 (amended) witness: on the concrete one-complete-row dataset
the request fails with the InsufficientData 400 and returns `filter_data`'s
cache. -/
theorem get_correlation_insufficient_iff_witness :
    (((get_correlation pearson0 exFetch1 cache0 94146 "ICBs" none).1 =
        Except.error (HTTPError.mk 400 "Insufficient data for correlation analysis") ↔
      ([exRow1].length < 3)) ∧
    (get_correlation pearson0 exFetch1 cache0 94146 "ICBs" none).2 =
      CacheState.mk [(94146, [exRow0, exRow1])] none ∧
    (3 ≤ [exRow1].length →
      ∃ out, (get_correlation pearson0 exFetch1 cache0 94146 "ICBs" none).1 =
        Except.ok out)) :=
  get_correlation_insufficient_iff pearson0 exFetch1 cache0 94146 "ICBs" none
    [exRow1] "2023/24" (CacheState.mk [(94146, [exRow0, exRow1])] none)
    [exRow1] (by decide) (by decide)

/-- Claim C8: on a `/correlation` result over at least 3 complete rows,
with `(r, p)` the value returned by the Pearson routine on the complete
rows, the response carries `r` and `p` rounded to 4 decimals, the
`significant` flag equals `p < 0.05`, and the interpretation is the
no-significant-relationship text when `p ≥ 0.05`, the better-quality text
when `p < 0.05` and `r > 0.3`, the worse-quality text when `p < 0.05` and
`r < -0.3`, and the weak-relationship text otherwise. -/
theorem get_correlation_output_spec (pearson : List ℚ → List ℚ → ℚ × ℚ)
    (fetch : Nat → List Row) (cache : CacheState) (iid : Nat) (at_ : String)
    (tp? : Option String) (df : List Row) (period : String) (c : CacheState)
    (dfc : List Row) (rv pv : ℚ)
    (hok : filter_data fetch cache iid at_ tp? = (Except.ok (df, period), c))
    (hdfc : dfc = df.filter (fun r => r.value.isSome && r.denominator.isSome))
    (hlen : ¬(dfc.length < 3))
    (hrp : pearson (dfc.map (fun r => ((r.denominator.getD 0 : Int) : ℚ)))
      (dfc.map valOf) = (rv, pv)) :
    ∃ out, (get_correlation pearson fetch cache iid at_ tp?).1 = Except.ok out ∧
      out.r = round4 rv ∧
      out.p_value = round4 pv ∧
      out.significant = decide (pv < (0.05 : ℚ)) ∧
      ((0.05 : ℚ) ≤ pv → out.interpretation =
        "No significant relationship between population size and care quality.") ∧
      (pv < (0.05 : ℚ) → (0.3 : ℚ) < rv → out.interpretation =
        "Larger populations tend to have better care quality.") ∧
      (pv < (0.05 : ℚ) → rv < -(0.3 : ℚ) → out.interpretation =
        "Larger populations tend to have worse care quality.") ∧
      (pv < (0.05 : ℚ) → rv ≤ (0.3 : ℚ) → -(0.3 : ℚ) ≤ rv →
        out.interpretation =
          "Weak relationship between population size and care quality.") := by
  subst hdfc
  simp only [get_correlation, hok]
  rw [if_neg hlen, hrp]
  refine ⟨_, rfl, rfl, rfl, rfl, ?_, ?_, ?_, ?_⟩
  · intro hp
    show interpretOf rv pv = _
    simp only [interpretOf]
    rw [if_pos hp]
  · intro hp hr
    show interpretOf rv pv = _
    simp only [interpretOf]
    rw [if_neg (not_le.mpr hp), if_pos hr]
  · intro hp hr
    show interpretOf rv pv = _
    simp only [interpretOf]
    have hr2 : ¬((0.3 : ℚ) < rv) := by
      have : rv < (0.3 : ℚ) := lt_trans hr (by norm_num)
      exact not_lt.mpr (le_of_lt this)
    rw [if_neg (not_le.mpr hp), if_neg hr2, if_pos hr]
  · intro hp hr1 hr2
    show interpretOf rv pv = _
    simp only [interpretOf]
    rw [if_neg (not_le.mpr hp), if_neg (not_lt.mpr hr1), if_neg (not_lt.mpr hr2)]

/-- Claim C8 witness: on the six-row dataset with a stub Pearson routine
returning `(r, p) = (1, 0)`, the response is significant with the
better-quality interpretation. -/
theorem get_correlation_output_spec_witness :
    (¬(exRowsC6.length < 3)) ∧
    (∃ out, (get_correlation pearsonEx exFetchC6 cache0 94146 "ICBs" none).1 =
        Except.ok out ∧
      out.r = round4 1 ∧
      out.p_value = round4 0 ∧
      out.significant = decide ((0 : ℚ) < (0.05 : ℚ)) ∧
      ((0.05 : ℚ) ≤ (0 : ℚ) → out.interpretation =
        "No significant relationship between population size and care quality.") ∧
      ((0 : ℚ) < (0.05 : ℚ) → (0.3 : ℚ) < (1 : ℚ) → out.interpretation =
        "Larger populations tend to have better care quality.") ∧
      ((0 : ℚ) < (0.05 : ℚ) → (1 : ℚ) < -(0.3 : ℚ) → out.interpretation =
        "Larger populations tend to have worse care quality.") ∧
      ((0 : ℚ) < (0.05 : ℚ) → (1 : ℚ) ≤ (0.3 : ℚ) → -(0.3 : ℚ) ≤ (1 : ℚ) →
        out.interpretation =
          "Weak relationship between population size and care quality.")) :=
  ⟨by decide,
    get_correlation_output_spec pearsonEx exFetchC6 cache0 94146 "ICBs" none
      exRowsC6 "2023/24" (CacheState.mk [(94146, exRowsC6)] none) exRowsC6 1 0
      (by decide) (by decide) (by decide) rfl⟩

/-- Claim C9: the `/map` join of boundaries with the filtered indicator
rows (area type fixed to ICBs, joined by area code) is a left join
retaining every boundary: each boundary contributes an entry to the
plotted table, and a boundary whose code matches no indicator row is kept
as an entry with a missing row, whose fill is the distinct "no data" fill
appearing among the plotted fills — it is never dropped. -/
theorem generate_map_left_join_retains_boundaries
    (fetchB : Unit → List Boundary) (fetch : Nat → List Row)
    (cache : CacheState) (iid : Nat) (tp? : Option String) (df : List Row)
    (period : String) (c : CacheState) (M : List (Boundary × Option Row))
    (hok : filter_data fetch cache iid "ICBs" tp? = (Except.ok (df, period), c))
    (hM : M = mergeLeft (get_boundaries fetchB c).1 df) :
    generate_map fetchB fetch cache iid tp? =
      (Except.ok (MapPlot.mk period M (M.map fillOf)),
        (get_boundaries fetchB c).2) ∧
    ∀ b ∈ (get_boundaries fetchB c).1,
      (∃ e ∈ M, e.1 = b) ∧
      (df.filter (fun r => r.areaCode == b.code) = [] →
        ((b, (none : Option Row)) ∈ M ∧
          fillOf (b, (none : Option Row)) = Fill.noData ∧
          Fill.noData ∈ M.map fillOf)) := by
  subst hM
  constructor
  · simp only [generate_map, hok]
  · intro b hb
    constructor
    · by_cases hfilt : df.filter (fun r => r.areaCode == b.code) = []
      · refine ⟨(b, none), List.mem_flatMap.mpr ⟨b, hb, ?_⟩, rfl⟩
        rw [if_pos hfilt]
        exact List.mem_cons_self _ _
      · obtain ⟨r, hr⟩ := List.exists_mem_of_ne_nil _ hfilt
        refine ⟨(b, some r), List.mem_flatMap.mpr ⟨b, hb, ?_⟩, rfl⟩
        rw [if_neg hfilt]
        exact List.mem_map.mpr ⟨r, hr, rfl⟩
    · intro hfilt
      have hmem : (b, (none : Option Row)) ∈
          mergeLeft (get_boundaries fetchB c).1 df := by
        refine List.mem_flatMap.mpr ⟨b, hb, ?_⟩
        rw [if_pos hfilt]
        exact List.mem_cons_self _ _
      exact ⟨hmem, rfl, List.mem_map.mpr ⟨(b, none), hmem, rfl⟩⟩

/-- Claim C9 witness: with two concrete boundaries of which only one
matches the data, the unmatched boundary is retained with the "no data"
fill. -/
theorem generate_map_left_join_retains_boundaries_witness :
    (generate_map exFetchB exFetch1 cache0 94146 none =
      (Except.ok (MapPlot.mk "2023/24"
        (mergeLeft (get_boundaries exFetchB
          (CacheState.mk [(94146, [exRow0, exRow1])] none)).1 [exRow1])
        ((mergeLeft (get_boundaries exFetchB
          (CacheState.mk [(94146, [exRow0, exRow1])] none)).1 [exRow1]).map fillOf)),
        (get_boundaries exFetchB
          (CacheState.mk [(94146, [exRow0, exRow1])] none)).2) ∧
    ∀ b ∈ (get_boundaries exFetchB
        (CacheState.mk [(94146, [exRow0, exRow1])] none)).1,
      (∃ e ∈ mergeLeft (get_boundaries exFetchB
          (CacheState.mk [(94146, [exRow0, exRow1])] none)).1 [exRow1], e.1 = b) ∧
      ([exRow1].filter (fun r => r.areaCode == b.code) = [] →
        ((b, (none : Option Row)) ∈ mergeLeft (get_boundaries exFetchB
            (CacheState.mk [(94146, [exRow0, exRow1])] none)).1 [exRow1] ∧
          fillOf (b, (none : Option Row)) = Fill.noData ∧
          Fill.noData ∈ (mergeLeft (get_boundaries exFetchB
            (CacheState.mk [(94146, [exRow0, exRow1])] none)).1 [exRow1]).map
              fillOf))) :=
  generate_map_left_join_retains_boundaries exFetchB exFetch1 cache0 94146 none
    [exRow1] "2023/24" (CacheState.mk [(94146, [exRow0, exRow1])] none)
    (mergeLeft (get_boundaries exFetchB
      (CacheState.mk [(94146, [exRow0, exRow1])] none)).1 [exRow1])
    (by decide) rfl

end DiabetesAPI
